import Mathlib

/-!
Verification of the musicode `simplyV1.0` audio-analysis service
(`src/api/simplyV1.0.py`) against its natural-language specification.

The Python source is shallowly embedded:

* Python floats are modelled as `Rat` (the claims only concern exact
  values such as `120.0`, positivity, and equality — no floating-point
  rounding is at stake).
* A call into the external `librosa`/`numpy` libraries that may raise is
  modelled as an `Except String α` value supplied as input: `.ok a` is a
  normal return, `.error msg` is a raised exception.  The `try/except`
  blocks of the source become `match` on that value.
* `np.argmax` is embedded by its documented semantics: the index of the
  first occurrence of the maximum value.
* The HTTP handler's dispatch on `req.method` and its response dictionaries
  (statusCode / headers / JSON body fields) are embedded structurally.
-/

namespace Musicode

/-- Maximum of a list of rationals (`0` for the empty list; the empty case
is never reached by the callers below). -/
def listMax : List Rat → Rat
  | [] => 0
  | x :: xs => xs.foldl (fun a b => if a ≤ b then b else a) x

/-- `np.argmax`: index of the first occurrence of the maximum value
(`0` on the empty list, matching `np.argmax` on an all-NaN mean where every
comparison fails and index `0` is kept). -/
def argmaxIdx (l : List Rat) : Nat := l.findIdx (fun x => listMax l ≤ x)

/-- `major_keys = ['C','C#','D','D#','E','F','F#','G','G#','A','A#','B']`
(line 28 of the source). -/
def major_keys : List String :=
  ["C", "C#", "D", "D#", "E", "F"] ++ ["F#", "G", "G#", "A", "A#", "B"]

/-- `chroma_avg = np.mean(chroma, axis=1)` (line 26): the frame-wise mean of
the 12-bin chroma vectors.  For an empty frame list numpy produces an
all-NaN vector whose `argmax` is `0`; here `0 / 0 = 0` gives an all-zero
vector whose `argmaxIdx` is likewise `0`, so the observable result
(`major_keys[0] = 'C'`) coincides. -/
def chroma_avg (frames : List (Fin 12 → Rat)) : Fin 12 → Rat :=
  fun i => (frames.map (fun f => f i)).sum / (frames.length : Rat)

/-- `SimpleMusicProcessor.detect_key` (lines 21–34).  The argument is the
outcome of the `librosa.feature.chroma_cqt` call: a chroma matrix (one
12-bin vector per frame) or a raised exception.  Averaging, `argmax` and
the table indexing are the source's own code; any exception yields `'C'`. -/
def detect_key (call : Except String (List (Fin 12 → Rat))) : String :=
  match call with
  | .error _ => "C"
  | .ok frames =>
    let avg := chroma_avg frames
    let profile := (List.finRange 12).map avg
    major_keys.getD (argmaxIdx profile) "C"

/-- Modelled from the spec: `librosa.beat.tempo` (called on line 15, not
under `src/`).  Per §4.3 of the spec the estimator restricts to a tempo
search range, picks the lag of maximum periodicity strength (smallest lag
first on ties), converts it to BPM, and applies the failure policy: an
empty search range or a non-positive result yields the default `120.0`.
The input is the list of `(BPM, periodicity strength)` candidates of the
search range, ordered by increasing lag. -/
def beat_tempo (cands : List (Rat × Rat)) : Rat :=
  match cands with
  | [] => 120
  | c :: cs =>
    let strengths := (c :: cs).map Prod.snd
    let bpm := ((c :: cs).getD (argmaxIdx strengths) c).fst
    if bpm ≤ 0 then 120 else bpm

/-- `SimpleMusicProcessor.detect_tempo` (lines 10–19).  The argument is the
outcome of the `librosa` onset/tempo call chain: the candidate search range
reaching `beat_tempo`, or a raised exception.  Any exception yields
`120.0`. -/
def detect_tempo (call : Except String (List (Rat × Rat))) : Rat :=
  match call with
  | .error _ => 120
  | .ok cands => beat_tempo cands

/-- The static `chord_progressions` dict of `generate_chords`
(lines 38–46), as an association list in source order. -/
def chord_progressions : List (String × List String) :=
  [("C", ["C", "G", "Am", "F"]),
   ("G", ["G", "D", "Em", "C"]),
   ("D", ["D", "A", "Bm", "G"]),
   ("A", ["A", "E", "F#m", "D"]),
   ("E", ["E", "B", "C#m", "A"]),
   ("F", ["F", "C", "Dm", "Bb"]),
   ("Am", ["Am", "G", "C", "F"])]

set_option linter.unusedVariables false in
/-- `SimpleMusicProcessor.generate_chords` (lines 36–47):
`chord_progressions.get(key, ['C','G','Am','F'])`.  The `tempo` parameter
is accepted and ignored, exactly as in the source. -/
def generate_chords (key : String) (tempo : Rat) : List String :=
  (chord_progressions.lookup key).getD ["C", "G", "Am", "F"]

/-! ### The service-layer `handler` (lines 49–183) -/

/-- `req.method`: the three methods the handler dispatches on, plus any
other method string (`else` branch, line 159). -/
inductive Method
  | OPTIONS
  | GET
  | POST
  | other (s : String)

/-- The JSON response bodies the handler serializes: a `success` flag plus
the optional fields appearing in the various branches.  A field absent from
a Python dict is `none` here. -/
structure RespBody where
  success : Bool
  tempo : Option Rat
  key : Option String
  chords : Option (List String)
  message : Option String
  error : Option String
  endpoints : Option (List (String × String))

/-- A handler return value: `statusCode`, `headers`, and the JSON `body`
(the OPTIONS branch, line 53, returns no body). -/
structure HttpResponse where
  statusCode : Nat
  headers : List (String × String)
  body : Option RespBody

/-- The outcomes of the `librosa` feature-extraction calls made on a
successfully loaded signal: the tempo-candidate search range reaching
`beat_tempo` (or an exception inside `detect_tempo`'s `try`) and the
chroma matrix (or an exception inside `detect_key`'s `try`). -/
structure CoreCall where
  tempoCall : Except String (List (Rat × Rat))
  chromaCall : Except String (List (Fin 12 → Rat))

/-- The per-request outcomes of the POST branch's external steps:
* `bodyParse` — `json.loads(req.body)` followed by `data.get('audioData','')`
  (lines 80–86): the `audioData` string, or an exception (malformed JSON /
  non-dict body), which escapes to the handler's outer `except` (line 172);
* `b64decode` — `base64.b64decode(audio_b64)` (line 103): the raw bytes or
  a raised `binascii.Error`;
* `load` — `librosa.load(tmp_path, sr=22050, duration=20)` (line 124):
  on success the downstream feature-extraction outcomes, on failure the
  exception message caught on line 139. -/
structure PostRequest where
  bodyParse : Except String String
  b64decode : Except String (List Nat)
  load : Except String CoreCall

/-- The CORS/content-type headers used by every JSON response. -/
def jsonHeaders : List (String × String) :=
  [("Content-Type", "application/json"), ("Access-Control-Allow-Origin", "*")]

/-- The POST branch of `handler` (lines 78–157), with the outer
`try/except` (lines 172–183) applied to the exception that can escape it
(body parsing).  Every path through `librosa.load` and the processor
returns `statusCode` 200 (line 150). -/
def process_music (post : PostRequest) : HttpResponse :=
  match post.bodyParse with
  | .error e =>
    { statusCode := 500, headers := jsonHeaders,
      body := some { success := false, tempo := none, key := none, chords := none,
                     message := none, error := some ("Server error: " ++ e),
                     endpoints := none } }
  | .ok audio_b64 =>
    if audio_b64 = "" then
      { statusCode := 400, headers := jsonHeaders,
        body := some { success := false, tempo := none, key := none, chords := none,
                       message := none, error := some "No audio data provided",
                       endpoints := none } }
    else
      match post.b64decode with
      | .error _ =>
        { statusCode := 400, headers := jsonHeaders,
          body := some { success := false, tempo := none, key := none, chords := none,
                         message := none, error := some "Invalid audio data format",
                         endpoints := none } }
      | .ok _ =>
        match post.load with
        | .error audio_error =>
          { statusCode := 200, headers := jsonHeaders,
            body := some { success := false, tempo := none, key := none, chords := none,
                           message := none,
                           error := some ("Audio processing error: " ++ audio_error),
                           endpoints := none } }
        | .ok core =>
          let tempo := detect_tempo core.tempoCall
          let key := detect_key core.chromaCall
          let chords := generate_chords key tempo
          { statusCode := 200, headers := jsonHeaders,
            body := some { success := true, tempo := some tempo, key := some key,
                           chords := some chords, message := some "音乐处理成功！",
                           error := none, endpoints := none } }

/-- `handler` (lines 49–183): dispatch on the HTTP method.  `post` carries
the POST branch's external outcomes and is ignored by the other
branches. -/
def handler (method : Method) (post : PostRequest) : HttpResponse :=
  match method with
  | .OPTIONS =>
    { statusCode := 200,
      headers := [("Access-Control-Allow-Origin", "*"),
                  ("Access-Control-Allow-Methods", "POST, OPTIONS"),
                  ("Access-Control-Allow-Headers", "Content-Type")],
      body := none }
  | .GET =>
    { statusCode := 200, headers := jsonHeaders,
      body := some { success := true, tempo := none, key := none, chords := none,
                     message := some "AI Music API is running!", error := none,
                     endpoints := some [("POST /api/process-music",
                                         "Process audio and generate music")] } }
  | .POST => process_music post
  | .other _ =>
    { statusCode := 405, headers := jsonHeaders,
      body := some { success := false, tempo := none, key := none, chords := none,
                     message := none, error := some "Method not allowed",
                     endpoints := none } }

/-! ### Helper lemmas -/

theorem foldlMax_le_self (xs : List Rat) (a : Rat) :
    a ≤ xs.foldl (fun a b => if a ≤ b then b else a) a := by
  induction xs generalizing a with
  | nil => exact le_refl a
  | cons x xs ih =>
    simp only [List.foldl_cons]
    by_cases h : a ≤ x
    · simpa [h] using le_trans h (ih x)
    · simpa [h] using ih a

theorem le_foldlMax_of_mem {y : Rat} (xs : List Rat) (a : Rat) (hy : y ∈ xs) :
    y ≤ xs.foldl (fun a b => if a ≤ b then b else a) a := by
  induction xs generalizing a with
  | nil => cases hy
  | cons x xs ih =>
    simp only [List.foldl_cons]
    rcases List.mem_cons.mp hy with rfl | hmem
    · by_cases h : a ≤ y
      · simpa [h] using foldlMax_le_self xs y
      · simpa [h] using le_trans (le_of_not_le h) (foldlMax_le_self xs a)
    · by_cases h : a ≤ x <;> simp only [h, if_pos, if_neg] <;> exact ih _ hmem

theorem foldlMax_mem (xs : List Rat) (a : Rat) :
    xs.foldl (fun a b => if a ≤ b then b else a) a = a ∨
      xs.foldl (fun a b => if a ≤ b then b else a) a ∈ xs := by
  induction xs generalizing a with
  | nil => exact Or.inl rfl
  | cons x xs ih =>
    simp only [List.foldl_cons]
    by_cases h : a ≤ x
    · simp only [h, if_pos]
      rcases ih x with h' | h'
      · exact Or.inr (List.mem_cons.mpr (Or.inl h'))
      · exact Or.inr (List.mem_cons.mpr (Or.inr h'))
    · simp only [h, if_neg, not_false_iff]
      rcases ih a with h' | h'
      · exact Or.inl h'
      · exact Or.inr (List.mem_cons.mpr (Or.inr h'))

theorem le_listMax_of_mem {y : Rat} {l : List Rat} (hy : y ∈ l) : y ≤ listMax l := by
  cases l with
  | nil => cases hy
  | cons x xs =>
    unfold listMax
    rcases List.mem_cons.mp hy with rfl | hmem
    · exact foldlMax_le_self xs y
    · exact le_foldlMax_of_mem xs x hmem

theorem listMax_mem {l : List Rat} (h : l ≠ []) : listMax l ∈ l := by
  cases l with
  | nil => exact absurd rfl h
  | cons x xs =>
    show xs.foldl (fun a b => if a ≤ b then b else a) x ∈ x :: xs
    rcases foldlMax_mem xs x with h' | h'
    · rw [h']; exact List.mem_cons_self x xs
    · exact List.mem_cons.mpr (Or.inr h')

theorem findIdx_eq_of_first {α : Type} (p : α → Bool) :
    ∀ (l : List α) (i : Nat) (hi : i < l.length),
      p (l.get ⟨i, hi⟩) = true →
      (∀ j (hj : j < i), p (l.get ⟨j, Nat.lt_trans hj hi⟩) = false) →
      l.findIdx p = i := by
  intro l
  induction l with
  | nil => intro i hi; cases hi
  | cons x xs ih =>
    intro i hi hp hfst
    cases i with
    | zero =>
      simp only [List.get] at hp
      simp [List.findIdx_cons, hp]
    | succ n =>
      have hx : p x = false := by
        have := hfst 0 (Nat.succ_pos n)
        simpa using this
      have hn : n < xs.length := Nat.lt_of_succ_lt_succ hi
      have hrec : xs.findIdx p = n := by
        apply ih n hn
        · simpa using hp
        · intro j hj
          have := hfst (j + 1) (Nat.succ_lt_succ hj)
          simpa using this
      simp [List.findIdx_cons, hx, hrec]

/-- `argmaxIdx` returns the first index attaining the maximum: if position
`i` is a maximum and every earlier position is strictly below it, then
`argmaxIdx` picks `i`. -/
theorem argmaxIdx_eq_of_first (l : List Rat) (i : Nat) (hi : i < l.length)
    (hmax : ∀ j (hj : j < l.length), l.get ⟨j, hj⟩ ≤ l.get ⟨i, hi⟩)
    (hfst : ∀ j (hj : j < i), l.get ⟨j, Nat.lt_trans hj hi⟩ < l.get ⟨i, hi⟩) :
    argmaxIdx l = i := by
  have hne : l ≠ [] := by
    intro h; rw [h] at hi; cases hi
  have hmax_eq : listMax l = l.get ⟨i, hi⟩ := by
    apply le_antisymm
    · rcases List.mem_iff_get.mp (listMax_mem hne) with ⟨⟨j, hj⟩, hget⟩
      exact hget ▸ hmax j hj
    · exact le_listMax_of_mem (List.get_mem l i hi)
  refine findIdx_eq_of_first _ l i hi ?_ ?_
  · simp [hmax_eq]
  · intro j hj
    have hlt : l.get ⟨j, Nat.lt_trans hj hi⟩ < l.get ⟨i, hi⟩ := hfst j hj
    simp only [decide_eq_false_iff_not, hmax_eq]
    exact not_le_of_lt hlt

/-- An element picked by `getD` is a member of the list whenever the
default itself is. -/
theorem getD_mem_of_default_mem {α : Type} {l : List α} {d : α} (i : Nat)
    (hd : d ∈ l) : l.getD i d ∈ l := by
  rw [List.getD_eq_getElem?_getD]
  cases h : l[i]? with
  | none => simpa using hd
  | some x =>
    have := List.getElem?_mem h
    simpa using this

/-- When bin `i` of the frame-averaged chroma profile is maximal and every
earlier bin is strictly smaller, `detect_key` returns the label at `i`. -/
theorem detect_key_eq_argmax (frames : List (Fin 12 → Rat)) (i : Fin 12)
    (hmax : ∀ j : Fin 12, chroma_avg frames j ≤ chroma_avg frames i)
    (hfst : ∀ j : Fin 12, j < i → chroma_avg frames j < chroma_avg frames i) :
    detect_key (.ok frames) = major_keys.getD i.val "C" := by
  show major_keys.getD (argmaxIdx ((List.finRange 12).map (chroma_avg frames))) "C" =
    major_keys.getD i.val "C"
  have hlen : ((List.finRange 12).map (chroma_avg frames)).length = 12 := by simp
  have hi : i.val < ((List.finRange 12).map (chroma_avg frames)).length := by
    rw [hlen]; exact i.isLt
  have hget : ∀ (j : Nat) (hj : j < ((List.finRange 12).map (chroma_avg frames)).length),
      ((List.finRange 12).map (chroma_avg frames)).get ⟨j, hj⟩ =
        chroma_avg frames ⟨j, by simpa using hj⟩ := by
    intro j hj
    simp [List.getElem_map, List.get_finRange]
  have hidx : argmaxIdx ((List.finRange 12).map (chroma_avg frames)) = i.val := by
    apply argmaxIdx_eq_of_first _ i.val hi
    · intro j hj
      rw [hget j hj, hget i.val hi]
      exact hmax _
    · intro j hj
      rw [hget j (Nat.lt_trans hj hi), hget i.val hi]
      exact hfst ⟨j, Nat.lt_trans hj i.isLt⟩ hj
  rw [hidx]

/-- An all-zero chroma matrix (in particular, the one produced from a
silent signal, or the degenerate empty one) makes `detect_key` return
`"C"`. -/
theorem detect_key_allzero (frames : List (Fin 12 → Rat))
    (hz : ∀ f ∈ frames, ∀ j, f j = 0) : detect_key (.ok frames) = "C" := by
  have havg : ∀ j : Fin 12, chroma_avg frames j = 0 := by
    intro j
    unfold chroma_avg
    have hall : ∀ x ∈ frames.map (fun f => f j), x = 0 := by
      intro x hx
      rcases List.mem_map.mp hx with ⟨f, hf, rfl⟩
      exact hz f hf j
    rw [List.sum_eq_zero hall, zero_div]
  have h := detect_key_eq_argmax frames 0
    (fun j => by rw [havg j, havg 0])
    (fun j hj => absurd hj (by simp [Fin.lt_def]))
  simpa using h

/-! ### Claims -/

/-- C1: `generate_chords(k, t)` returns the table entry for each of the 7
defined keys (C, G, D, A, E, F, Am), falls back to the C-major progression
`['C','G','Am','F']` for every other key, and in all cases yields a
non-empty list of exactly 4 chord labels. -/
theorem generate_chords_spec (k : String) (t : Rat) :
    (k = "C" → generate_chords k t = ["C", "G", "Am", "F"]) ∧
    (k = "G" → generate_chords k t = ["G", "D", "Em", "C"]) ∧
    (k = "D" → generate_chords k t = ["D", "A", "Bm", "G"]) ∧
    (k = "A" → generate_chords k t = ["A", "E", "F#m", "D"]) ∧
    (k = "E" → generate_chords k t = ["E", "B", "C#m", "A"]) ∧
    (k = "F" → generate_chords k t = ["F", "C", "Dm", "Bb"]) ∧
    (k = "Am" → generate_chords k t = ["Am", "G", "C", "F"]) ∧
    (k ∉ ["C", "G", "D", "A", "E", "F", "Am"] →
      generate_chords k t = ["C", "G", "Am", "F"]) ∧
    (generate_chords k t).length = 4 ∧ generate_chords k t ≠ [] := by
  rcases eq_or_ne k "C" with rfl | h1
  · simp [generate_chords, chord_progressions, List.lookup]
  rcases eq_or_ne k "G" with rfl | h2
  · simp [generate_chords, chord_progressions, List.lookup]
  rcases eq_or_ne k "D" with rfl | h3
  · simp [generate_chords, chord_progressions, List.lookup]
  rcases eq_or_ne k "A" with rfl | h4
  · simp [generate_chords, chord_progressions, List.lookup]
  rcases eq_or_ne k "E" with rfl | h5
  · simp [generate_chords, chord_progressions, List.lookup]
  rcases eq_or_ne k "F" with rfl | h6
  · simp [generate_chords, chord_progressions, List.lookup]
  rcases eq_or_ne k "Am" with rfl | h7
  · simp [generate_chords, chord_progressions, List.lookup]
  have hlook : generate_chords k t = ["C", "G", "Am", "F"] := by
    have e1 : (k == "C") = false := beq_eq_false_iff_ne.mpr h1
    have e2 : (k == "G") = false := beq_eq_false_iff_ne.mpr h2
    have e3 : (k == "D") = false := beq_eq_false_iff_ne.mpr h3
    have e4 : (k == "A") = false := beq_eq_false_iff_ne.mpr h4
    have e5 : (k == "E") = false := beq_eq_false_iff_ne.mpr h5
    have e6 : (k == "F") = false := beq_eq_false_iff_ne.mpr h6
    have e7 : (k == "Am") = false := beq_eq_false_iff_ne.mpr h7
    simp [generate_chords, chord_progressions, List.lookup, e1, e2, e3, e4, e5, e6, e7]
  exact ⟨fun h => absurd h h1, fun h => absurd h h2, fun h => absurd h h3,
         fun h => absurd h h4, fun h => absurd h h5, fun h => absurd h h6,
         fun h => absurd h h7, fun _ => hlook, by rw [hlook]; rfl,
         by rw [hlook]; exact List.cons_ne_nil _ _⟩

/-- Witness for C1 at the unmapped key `"B"`: the fallback progression,
with length 4 and non-emptiness. -/
theorem generate_chords_spec_witness :
    generate_chords "B" 0 = ["C", "G", "Am", "F"] ∧
    (generate_chords "B" 0).length = 4 ∧ generate_chords "B" 0 ≠ [] := by
  have h := generate_chords_spec "B" 0
  exact ⟨h.2.2.2.2.2.2.2.1 (by decide), h.2.2.2.2.2.2.2.2.1, h.2.2.2.2.2.2.2.2.2⟩

/-- C8: the `tempo` parameter has no effect whatsoever on the progression
`generate_chords` chooses. -/
theorem generate_chords_tempo_independent (k : String) (t1 t2 : Rat) :
    generate_chords k t1 = generate_chords k t2 := rfl

/-- C2: `detect_tempo` returns the default `120.0` when the estimation
call raises an exception, when the tempo search range is empty, and when
the estimate is non-positive (stated via: every candidate BPM in the range
is non-positive, hence so is the selected one); in every case the result
is positive.  `detect_tempo` is a total function, so no exception
propagates to its caller. -/
theorem detect_tempo_spec :
    (∀ msg, detect_tempo (.error msg) = 120) ∧
    detect_tempo (.ok []) = 120 ∧
    (∀ cands : List (Rat × Rat), (∀ p ∈ cands, p.1 ≤ 0) →
      detect_tempo (.ok cands) = 120) ∧
    (∀ call, 0 < detect_tempo call) := by
  refine ⟨fun msg => rfl, rfl, ?_, ?_⟩
  · intro cands hall
    cases cands with
    | nil => rfl
    | cons c cs =>
      have hmem : ((c :: cs).getD (argmaxIdx ((c :: cs).map Prod.snd)) c) ∈ c :: cs :=
        getD_mem_of_default_mem _ (List.mem_cons_self c cs)
      have hle := hall _ hmem
      simp only [detect_tempo, beat_tempo]
      rw [if_pos hle]
  · intro call
    cases call with
    | error msg => norm_num [detect_tempo]
    | ok cands =>
      cases cands with
      | nil => norm_num [detect_tempo, beat_tempo]
      | cons c cs =>
        simp only [detect_tempo, beat_tempo]
        by_cases h : ((c :: cs).getD (argmaxIdx ((c :: cs).map Prod.snd)) c).fst ≤ 0
        · rw [if_pos h]; norm_num
        · rw [if_neg h]; exact lt_of_not_le h

/-- C3: `detect_key` always returns one of the 12 pitch-class labels, and
returns the default `"C"` when the chroma computation raises an exception
and when the frame-averaged profile is empty or all-zero.  `detect_key` is
a total function, so no exception propagates to its caller. -/
theorem detect_key_spec :
    (∀ msg, detect_key (.error msg) = "C") ∧
    (∀ call, detect_key call ∈ major_keys) ∧
    detect_key (.ok []) = "C" ∧
    (∀ frames : List (Fin 12 → Rat), (∀ f ∈ frames, ∀ j, f j = 0) →
      detect_key (.ok frames) = "C") := by
  refine ⟨fun msg => rfl, ?_, ?_, detect_key_allzero⟩
  · intro call
    cases call with
    | error msg =>
      show "C" ∈ major_keys
      decide
    | ok frames =>
      show major_keys.getD (argmaxIdx ((List.finRange 12).map (chroma_avg frames))) "C" ∈
        major_keys
      exact getD_mem_of_default_mem _ (by decide)
  · exact detect_key_allzero [] (by intro f hf; cases hf)

/-- Witness for C3: the membership and the all-zero fallback at concrete
inputs. -/
theorem detect_key_spec_witness :
    detect_key (.error "x") = "C" ∧
    detect_key (.ok [fun _ => 1]) ∈ major_keys ∧
    detect_key (.ok [fun _ => (0 : Rat)]) = "C" :=
  ⟨detect_key_spec.1 "x", detect_key_spec.2.1 _,
   detect_key_spec.2.2.2 [fun _ => 0]
     (fun f hf j => by rcases List.mem_singleton.mp hf with rfl; rfl)⟩

/-- C4: on a chroma profile with several bins tied at the maximum,
`detect_key` returns the label of the lowest tied pitch-class index
(stable first-occurrence argmax), and an all-equal profile yields `"C"`.
The function is deterministic, so the tie-break is reproducible. -/
theorem detect_key_tiebreak :
    (∀ (frames : List (Fin 12 → Rat)) (i : Fin 12),
      (∀ j : Fin 12, chroma_avg frames j ≤ chroma_avg frames i) →
      (∀ j : Fin 12, j < i → chroma_avg frames j < chroma_avg frames i) →
      detect_key (.ok frames) = major_keys.getD i.val "C") ∧
    (∀ frames : List (Fin 12 → Rat),
      (∀ j k : Fin 12, chroma_avg frames j = chroma_avg frames k) →
      detect_key (.ok frames) = "C") := by
  refine ⟨detect_key_eq_argmax, ?_⟩
  intro frames heq
  have h := detect_key_eq_argmax frames 0
    (fun j => le_of_eq (heq j 0))
    (fun j hj => absurd hj (by simp [Fin.lt_def]))
  simpa using h

/-- Witness for C4: a profile with bins 3 and 7 tied at the maximum
selects pitch class 3 (`"D#"`), and an all-equal profile yields `"C"`. -/
theorem detect_key_tiebreak_witness :
    detect_key (.ok [fun j => if j = (3 : Fin 12) ∨ j = 7 then 2 else 1]) = "D#" ∧
    detect_key (.ok [fun _ => (1 : Rat)]) = "C" := by
  constructor
  · have h := detect_key_tiebreak.1 [fun j => if j = (3 : Fin 12) ∨ j = 7 then 2 else 1] 3
      (by with_unfolding_all decide) (by with_unfolding_all decide)
    exact h.trans rfl
  · exact detect_key_tiebreak.2 [fun _ => (1 : Rat)] (by with_unfolding_all decide)

/-- Witness for C2: each fallback branch and positivity at concrete inputs. -/
theorem detect_tempo_spec_witness :
    detect_tempo (.error "boom") = 120 ∧ detect_tempo (.ok []) = 120 ∧
    detect_tempo (.ok [((-5 : Rat), 1)]) = 120 ∧
    0 < detect_tempo (.ok [((99 : Rat), 1)]) :=
  ⟨detect_tempo_spec.1 "boom", detect_tempo_spec.2.1,
   detect_tempo_spec.2.2.1 _ (by with_unfolding_all decide),
   detect_tempo_spec.2.2.2 _⟩

/-- C5: once the signal has loaded (`load = .ok core`), the assembled
result always has `success = true`, whatever the tempo and chroma call
outcomes are; the key field does not depend on the tempo call's outcome
and the tempo field does not depend on the chroma call's outcome (the two
estimators fail independently). -/
theorem estimators_independent :
    (∀ (s : String) (bs : List Nat) (core : CoreCall), s ≠ "" →
      (handler .POST ⟨.ok s, .ok bs, .ok core⟩).body.map RespBody.success =
        some true) ∧
    (∀ (s : String) (bs : List Nat) (t1 t2 : Except String (List (Rat × Rat)))
        (ch : Except String (List (Fin 12 → Rat))), s ≠ "" →
      (handler .POST ⟨.ok s, .ok bs, .ok ⟨t1, ch⟩⟩).body.map RespBody.key =
        (handler .POST ⟨.ok s, .ok bs, .ok ⟨t2, ch⟩⟩).body.map RespBody.key) ∧
    (∀ (s : String) (bs : List Nat) (t : Except String (List (Rat × Rat)))
        (ch1 ch2 : Except String (List (Fin 12 → Rat))), s ≠ "" →
      (handler .POST ⟨.ok s, .ok bs, .ok ⟨t, ch1⟩⟩).body.map RespBody.tempo =
        (handler .POST ⟨.ok s, .ok bs, .ok ⟨t, ch2⟩⟩).body.map RespBody.tempo) := by
  refine ⟨?_, ?_, ?_⟩
  · intro s bs core hs
    simp [handler, process_music, hs]
  · intro s bs t1 t2 ch hs
    simp [handler, process_music, hs]
  · intro s bs t ch1 ch2 hs
    simp [handler, process_music, hs]

/-- Witness for C5: with a failing tempo call and a failing chroma call the
result still has `success = true`, and swapping the tempo call outcome
leaves the key field unchanged. -/
theorem estimators_independent_witness :
    (handler .POST ⟨.ok "AAAA", .ok [0],
       .ok ⟨.error "tempo fail", .error "key fail"⟩⟩).body.map RespBody.success =
      some true ∧
    (handler .POST ⟨.ok "AAAA", .ok [0],
       .ok ⟨.error "tempo fail", .ok []⟩⟩).body.map RespBody.key =
      (handler .POST ⟨.ok "AAAA", .ok [0],
         .ok ⟨.ok [(99, 1)], .ok []⟩⟩).body.map RespBody.key :=
  ⟨estimators_independent.1 "AAAA" [0] _ (by decide),
   estimators_independent.2.1 "AAAA" [0] (.error "tempo fail") (.ok [(99, 1)])
     (.ok []) (by decide)⟩

/-- C6: a signal that fails to load (corrupt / undecodable, e.g.
zero-length) produces `success = false` together with a non-empty
descriptive error message, and the tempo, key and chords fields are all
unset. -/
theorem load_failure_surfaced (s : String) (bs : List Nat) (msg : String)
    (hs : s ≠ "") :
    (handler .POST ⟨.ok s, .ok bs, .error msg⟩).body =
      some { success := false, tempo := none, key := none, chords := none,
             message := none,
             error := some ("Audio processing error: " ++ msg),
             endpoints := none } ∧
    ("Audio processing error: " ++ msg) ≠ "" := by
  constructor
  · simp [handler, process_music, hs]
  · intro h
    have h0 : ("Audio processing error: " ++ msg).length = 0 := by rw [h]; rfl
    rw [String.length_append] at h0
    have h24 : ("Audio processing error: " : String).length = 24 := rfl
    omega

/-- Witness for C6 at a concrete corrupt-signal message. -/
theorem load_failure_surfaced_witness :
    (handler .POST ⟨.ok "AAAA", .ok [0], .error "could not decode"⟩).body =
      some { success := false, tempo := none, key := none, chords := none,
             message := none,
             error := some "Audio processing error: could not decode",
             endpoints := none } ∧
    ("Audio processing error: " ++ "could not decode") ≠ "" :=
  load_failure_surfaced "AAAA" [0] "could not decode" (by decide)

/-- Modelled from the spec: the feature-extraction outcome (the `librosa`
calls, which are not under `src/`) for an empty or all-silence signal.
Per §4.2 a degenerate onset envelope must be treated as "cannot estimate"
— an empty tempo search range — and a silent signal has no spectral
energy, so every chroma frame is all-zero. -/
def silence_core (nFrames : Nat) : CoreCall :=
  { tempoCall := .ok [],
    chromaCall := .ok (List.replicate nFrames (fun _ => 0)) }

/-- C7: analysing an empty or all-silence signal (any number of all-zero
chroma frames) succeeds with tempo `120.0`, key `"C"` and the C-major
progression — in particular for the frame count of 2 seconds of audio at
sample rate 22050. -/
theorem silence_analysis (s : String) (bs : List Nat) (nFrames : Nat)
    (hs : s ≠ "") :
    handler .POST ⟨.ok s, .ok bs, .ok (silence_core nFrames)⟩ =
      { statusCode := 200, headers := jsonHeaders,
        body := some { success := true, tempo := some 120, key := some "C",
                       chords := some ["C", "G", "Am", "F"],
                       message := some "音乐处理成功！", error := none,
                       endpoints := none } } := by
  have hkey : detect_key (.ok (List.replicate nFrames (fun _ => (0 : Rat)))) = "C" :=
    detect_key_allzero _ (by
      intro f hf j
      rw [List.eq_of_mem_replicate hf])
  simp [handler, process_music, hs, silence_core, detect_tempo, beat_tempo, hkey,
        generate_chords, chord_progressions, List.lookup]

/-- Witness for C7: 2 seconds of silence at 22050 Hz produce 87 chroma
frames under librosa's default hop of 512 samples; the response is the
success result with tempo 120, key C and the C-major progression. -/
theorem silence_analysis_witness :
    handler .POST ⟨.ok "AAAA", .ok [0], .ok (silence_core 87)⟩ =
      { statusCode := 200, headers := jsonHeaders,
        body := some { success := true, tempo := some 120, key := some "C",
                       chords := some ["C", "G", "Am", "F"],
                       message := some "音乐处理成功！", error := none,
                       endpoints := none } } :=
  silence_analysis "AAAA" [0] 87 (by decide)

/-- C9: the service layer's status codes — an empty/missing `audioData`
payload gives 400, a payload that fails base64 decoding gives 400, a
disallowed HTTP method gives 405, and an unexpected server error (an
exception escaping to the outer handler, e.g. from body parsing)
gives 500. -/
theorem status_codes :
    (∀ (bs : Except String (List Nat)) (lo : Except String CoreCall),
      (handler .POST ⟨.ok "", bs, lo⟩).statusCode = 400) ∧
    (∀ (s e : String) (lo : Except String CoreCall), s ≠ "" →
      (handler .POST ⟨.ok s, .error e, lo⟩).statusCode = 400) ∧
    (∀ (m : String) (post : PostRequest),
      (handler (.other m) post).statusCode = 405) ∧
    (∀ (e : String) (bs : Except String (List Nat))
        (lo : Except String CoreCall),
      (handler .POST ⟨.error e, bs, lo⟩).statusCode = 500) := by
  refine ⟨fun bs lo => rfl, ?_, fun m post => rfl, fun e bs lo => rfl⟩
  intro s e lo hs
  simp [handler, process_music, hs]

/-- Witness for C9: all four status codes at concrete requests. -/
theorem status_codes_witness :
    (handler .POST ⟨.ok "", .ok [0], .ok (silence_core 0)⟩).statusCode = 400 ∧
    (handler .POST ⟨.ok "AAAA", .error "bad b64",
       .ok (silence_core 0)⟩).statusCode = 400 ∧
    (handler (.other "PUT") ⟨.ok "AAAA", .ok [0],
       .ok (silence_core 0)⟩).statusCode = 405 ∧
    (handler .POST ⟨.error "malformed body", .ok [0],
       .ok (silence_core 0)⟩).statusCode = 500 :=
  ⟨status_codes.1 _ _, status_codes.2.1 "AAAA" "bad b64" _ (by decide),
   status_codes.2.2.1 "PUT" _, status_codes.2.2.2 "malformed body" _ _⟩

/-- C10: every POST whose body parses (non-empty `audioData`) and whose
payload base64-decodes returns status code 200, even when loading or
processing the audio fails — that failure is reported in the JSON body as
`success = false` with an error message, never as a 4xx/5xx status. -/
theorem post_decoded_always_200 :
    (∀ (s : String) (bs : List Nat) (lo : Except String CoreCall), s ≠ "" →
      (handler .POST ⟨.ok s, .ok bs, lo⟩).statusCode = 200) ∧
    (∀ (s msg : String) (bs : List Nat), s ≠ "" →
      (handler .POST ⟨.ok s, .ok bs, .error msg⟩).body.map RespBody.success =
        some false ∧
      (handler .POST ⟨.ok s, .ok bs, .error msg⟩).body.map RespBody.error =
        some (some ("Audio processing error: " ++ msg))) := by
  constructor
  · intro s bs lo hs
    cases lo <;> simp [handler, process_music, hs]
  · intro s msg bs hs
    constructor <;> simp [handler, process_music, hs]

/-- Witness for C10: a failing load still returns 200 with a
`success = false` body. -/
theorem post_decoded_always_200_witness :
    (handler .POST ⟨.ok "AAAA", .ok [0], .error "broken wav"⟩).statusCode = 200 ∧
    (handler .POST ⟨.ok "AAAA", .ok [0],
       .error "broken wav"⟩).body.map RespBody.success = some false :=
  ⟨post_decoded_always_200.1 "AAAA" [0] _ (by decide),
   (post_decoded_always_200.2 "AAAA" "broken wav" [0] (by decide)).1⟩

end Musicode
